/-
Verification of the light-curve template engine (pint/templates/lctemplate.py).

The Python classes are shallowly embedded over ℚ: numpy arrays of phases
become `List ℚ`, elementwise numpy arithmetic becomes per-phase functions
mapped over lists, stateful methods become explicit state-passing functions
on a `LCTemplate` structure, and fallible code returns `Except`.

The shape components (LCPrimitive subclasses, file lceprimitives.py) and the
normalization parameterization (NormAngles, file lcnorm.py) are external
collaborators of the core under study; the core consumes them only through
their capability contracts, so they are represented by structures of
abstract functions, with the few operations the claims need modelled from
the specification (each such definition is marked `Modelled from the spec:`).
-/
import Mathlib

namespace Pint

/-! ## Generic list helpers (numpy-style operations) -/

/-- np.linspace(0, 1, n+1): the n+1 evenly spaced grid points covering [0,1]. -/
def linspace01 (n : Nat) : List ℚ :=
  (List.range (n + 1)).map (fun i => (i : ℚ) / (n : ℚ))

/-- np.cumsum over a list. -/
def cumsum (l : List ℚ) : List ℚ :=
  (l.foldl (fun acc x => ((acc.1 + x), acc.2 ++ [acc.1 + x])) (0, [])).2

/-- Association-list read (used for the dict-based cache). -/
def alGet {α : Type} (l : List (Nat × α)) (k : Nat) : Option α :=
  (l.find? (fun kv => kv.1 == k)).map (·.2)

/-- Association-list write: replace the binding for `k`, or append it. -/
def alSet {α : Type} (l : List (Nat × α)) (k : Nat) (v : α) : List (Nat × α) :=
  if (l.find? (fun kv => kv.1 == k)).isSome then
    l.map (fun kv => if kv.1 == k then (kv.1, v) else kv)
  else l ++ [(k, v)]

/-- Read of `_cache_dirty`, a `defaultdict(lambda: True)`: a missing
derivative order reads as dirty. -/
def lookupDirty (l : List (Nat × Bool)) (k : Nat) : Bool :=
  ((l.find? (fun kv => kv.1 == k)).map (·.2)).getD true

/-! ## External capability: shape primitives (LCPrimitive)

Modelled from the spec: a primitive owns a parameter vector and exposes
evaluate / derivative / definite-integral / location operations, all
functions of that parameter vector, plus a validity check used by
`set_parameters` (e.g. bound violations). -/

structure LCPrimitive where
  /-- behaviour of `__call__(phases, log10_ens)` as a function of the
  parameter vector -/
  shape : List ℚ → ℚ → ℚ → ℚ
  /-- behaviour of `derivative(phases, log10_ens, order)` -/
  dshape : List ℚ → ℚ → ℚ → Nat → ℚ
  /-- behaviour of `integrate(a, b, log10_ens)` -/
  integShape : List ℚ → ℚ → ℚ → ℚ → ℚ
  /-- behaviour of `get_location()` -/
  locShape : List ℚ → ℚ
  /-- the (free) parameter vector -/
  p : List ℚ
  /-- Modelled from the spec: the success flag that the primitive's own
  `set_parameters` returns for a candidate slice (its validity check). -/
  valid : List ℚ → Bool

def defaultPrimitive : LCPrimitive :=
  { shape := fun _ _ _ => 0
    dshape := fun _ _ _ _ => 0
    integShape := fun _ _ _ _ => 0
    locShape := fun _ => 0
    p := []
    valid := fun _ => true }

instance : Inhabited LCPrimitive := ⟨defaultPrimitive⟩

/-- `prim(phases, log10_ens)` -/
def LCPrimitive.eval (pr : LCPrimitive) (phi e : ℚ) : ℚ := pr.shape pr.p phi e

/-- `prim.derivative(phases, log10_ens, order)` -/
def LCPrimitive.deriv (pr : LCPrimitive) (phi e : ℚ) (order : Nat) : ℚ :=
  pr.dshape pr.p phi e order

/-- `prim.integrate(a, b, log10_ens)` -/
def LCPrimitive.integrate (pr : LCPrimitive) (a b e : ℚ) : ℚ :=
  pr.integShape pr.p a b e

/-- `prim.get_location()` -/
def LCPrimitive.location (pr : LCPrimitive) : ℚ := pr.locShape pr.p

/-! ## External capability: normalization map (NormAngles and kin) -/

/-- Modelled from the spec: a NormMap owns a vector of internal parameters
and maps them (with an optional energy covariate) to a vector of physical
component weights; `n` is the number of weight slots it manages
(`len(norms)` in the source). -/
structure NormMap where
  n : Nat
  p : List ℚ
  wfun : List ℚ → ℚ → List ℚ

/-- `self.norms(log10_ens)`: the physical weight vector at an energy. -/
def NormMap.weights (nm : NormMap) (e : ℚ) : List ℚ := nm.wfun nm.p e

/-- Modelled from the spec: `NormAngles(tuple)` stores an internal
parameterization of the given relative amplitudes whose `weights(energy)`
recovers them; we model the internal parameters as the amplitudes
themselves with the identity map. -/
def normAngles (v : List ℚ) : NormMap :=
  { n := v.length, p := v, wfun := fun q _ => q }

/-- Modelled from the spec: `NormAngles.set_parameters` consumes a slice of
matching length and stores it as the internal parameter vector. -/
def NormMap.setParams (nm : NormMap) (q : List ℚ) : NormMap :=
  { nm with p := q.take nm.p.length }

/-- Drop slot `idx` and rescale the remaining weights so that the total
pulsed fraction is preserved. -/
def rescaleDrop (w : List ℚ) (idx : Nat) : List ℚ :=
  ((w.eraseIdx idx).map (fun x => x * (w.sum / (w.eraseIdx idx).sum)))

/-- Modelled from the spec: `NormAngles.delete_component(index)` returns a
new NormMap with the indexed weight slot removed and the remaining weights
renormalized (at the pivot energy) to preserve the total pulsed fraction. -/
def NormMap.deleteComponent (nm : NormMap) (idx : Nat) : NormMap :=
  normAngles (rescaleDrop (nm.weights 3) idx)

/-- Modelled from the spec: `NormAngles.add_component(initial_weight)`
returns a new NormMap with one extra slot at the given weight, the existing
weights rescaled (at the pivot energy) to preserve the total pulsed
fraction. -/
def NormMap.addComponent (nm : NormMap) (x : ℚ) : NormMap :=
  normAngles (((nm.weights 3).map
    (fun w => w * (((nm.weights 3).sum - x) / (nm.weights 3).sum))) ++ [x])

/-! ## LCTemplate: state and construction -/

/-- The state of an `LCTemplate` object: the primitive sequence, the norm
map, the cache settings (`ncache`, `interpolation`) and the dict-based
cache (`_cache`) with its per-order dirty flags (`_cache_dirty`, a
`defaultdict(lambda: True)` modelled as an association list whose missing
keys read as dirty). -/
structure LCTemplate where
  primitives : List LCPrimitive
  norms : NormMap
  ncache : Nat
  interpMode : Nat
  cache : List (Nat × List ℚ)
  cacheDirty : List (Nat × Bool)

inductive InitErr where
  | typeError
  | valueError
  | indexError
  deriving DecidableEq, Repr

/-- The `norms` constructor argument: omitted, an existing NormMap (an
object with `_make_p`), or a tuple of relative amplitudes. -/
inductive NormsArg where
  | map (nm : NormMap)
  | tuple (v : List ℚ)

/-- `LCTemplate.__init__(primitives, norms)`: install a uniform default
`np.ones(n)/n` when `norms` is omitted, wrap a tuple in `NormAngles`,
run `_sanity_checks` (match of primitive count and norm count), and start
with an empty cache whose orders all read dirty and the default cache
properties (`ncache=1000`, `interpolation=1`). -/
def lctemplateNew (prims : List LCPrimitive) (normsArg : Option NormsArg) :
    Except InitErr LCTemplate :=
  let nm : NormMap :=
    match normsArg with
    | none => normAngles (List.replicate prims.length (1 / (prims.length : ℚ)))
    | some (.map m) => m
    | some (.tuple v) => normAngles v
  if prims.length = nm.n then
    .ok { primitives := prims, norms := nm, ncache := 1000, interpMode := 1,
          cache := [], cacheDirty := [] }
  else
    .error .valueError

/-! ## Mixture evaluation (`_get_scales`, `__call__`, `derivative`) -/

/-- The accumulation loop `for n, prim in zip(norms, self.primitives):
rvals += n * prim(phases, ...)` at one phase, starting from the `rvals`
returned by `_get_scales`. -/
def mixtureFold (r0 : ℚ) (ws : List ℚ) (ps : List LCPrimitive) (phi e : ℚ) : ℚ :=
  (ws.zip ps).foldl (fun acc np => acc + np.1 * np.2.eval phi e) r0

/-- `LCTemplate._get_scales(phases, log10_ens)` at one phase: zero offset,
the norm vector, and its total. -/
def LCTemplate.getScales (t : LCTemplate) (e : ℚ) : ℚ × List ℚ × ℚ :=
  (0, t.norms.weights e, (t.norms.weights e).sum)

/-- `LCTemplate.__call__(phases, log10_ens, suppress_bg, use_cache=False)`
at one phase (the direct, non-cache branch; numpy evaluates it elementwise
over the phase array). -/
def LCTemplate.evalPt (t : LCTemplate) (phi e : ℚ) (suppressBg : Bool) : ℚ :=
  let s := t.getScales e
  let rvals := mixtureFold s.1 s.2.1 t.primitives phi e
  if suppressBg then rvals / s.2.2 else (1 - s.2.2) + rvals

/-- `LCTemplate.__call__` with `use_cache=False` on a phase array. -/
def LCTemplate.call (t : LCTemplate) (phases : List ℚ) (e : ℚ)
    (suppressBg : Bool) : List ℚ :=
  phases.map (fun phi => t.evalPt phi e suppressBg)

/-- `LCTemplate.derivative(phases, log10_ens, order, use_cache=False)` at
one phase: the weighted sum of primitive derivatives, no background term. -/
def LCTemplate.derivPt (t : LCTemplate) (phi e : ℚ) (order : Nat) : ℚ :=
  (((t.norms.weights e)).zip t.primitives).foldl
    (fun acc np => acc + np.1 * np.2.deriv phi e order) 0

/-- `LCTemplate.single_component(index, phases, log10_ens, add_bg)` at one
phase. NB the source adds `n.sum(axis=0)` when `add_bg` is set. -/
def LCTemplate.singleComponent (t : LCTemplate) (index : Nat) (phi e : ℚ)
    (addBg : Bool) : ℚ :=
  let nl := t.norms.weights e
  let rvals := (t.primitives.getD index defaultPrimitive).eval phi e * nl.getD index 0
  if addBg then rvals + nl.sum else rvals

/-! ## Evaluation cache (`set_cache`, `get_cache`, `eval_cache`) -/

inductive CacheErr where
  | indexError
  | notImplemented
  deriving DecidableEq, Repr

/-- `np.mod(x, 1)`. -/
def wrap1 (x : ℚ) : ℚ := x - (⌊x⌋ : ℤ)

/-- Conversion of a float to `dtype=int`: truncation toward zero. -/
def truncQ (q : ℚ) : Int := if 0 ≤ q then ⌊q⌋ else ⌈q⌉

/-- numpy's cast of NaN to a 64-bit integer: the int64 minimum. -/
def nanIndex : Int := -(2 ^ 63)

/-- A phase array entry: `some q` a finite value, `none` a NaN. -/
def ToIdxNearest (nc : Nat) (ph : Option ℚ) : Int :=
  match ph with
  | some q => truncQ (q * (nc : ℚ) + 1 / 2)
  | none => nanIndex

/-- One integer index into an array, with Python/numpy negative-index
wrapping; `none` when the index is out of range. -/
def listIndex (xs : List ℚ) (i : Int) : Option ℚ :=
  if 0 ≤ i then
    if i < (xs.length : Int) then xs.get? i.toNat else none
  else
    if -(xs.length : Int) ≤ i then xs.get? ((xs.length : Int) + i).toNat else none

/-- numpy fancy indexing `xs[idxs]`: fails (IndexError) when any index is
out of range. -/
def fancyIndex (xs : List ℚ) : List Int → Option (List ℚ)
  | [] => some []
  | i :: is =>
      match listIndex xs i, fancyIndex xs is with
      | some v, some vs => some (v :: vs)
      | _, _ => none

/-- The `interpolation == 0` branch of `LCTemplate.eval_cache`: nearest-point
indices `int(phase*ncache + 0.5)`; on IndexError, if any phase was NaN,
print a diagnostic (modelled by the returned `Option Nat` NaN count), remap
the NaN-derived indices to 0 and retry; otherwise re-raise. -/
def evalCacheNearest (grid : List ℚ) (nc : Nat) (phases : List (Option ℚ)) :
    Except CacheErr (List ℚ × Option Nat) :=
  let idxs := phases.map (ToIdxNearest nc)
  match fancyIndex grid idxs with
  | some v => .ok (v, none)
  | none =>
      let nanphases := (phases.filter (fun p => p.isNone)).length
      if 0 < nanphases then
        let idxs2 := (phases.zip idxs).map (fun pi => if pi.1.isNone then 0 else pi.2)
        match fancyIndex grid idxs2 with
        | some v => .ok (v, some nanphases)
        | none => .error .indexError
      else .error .indexError

/-- `LCTemplate.mark_cache_dirty`: set every existing order's flag
(missing orders already read as dirty). -/
def LCTemplate.markCacheDirty (t : LCTemplate) : LCTemplate :=
  { t with cacheDirty := t.cacheDirty.map (fun kv => (kv.1, true)) }

/-- `LCTemplate.set_cache_properties(ncache, interpolation)`. -/
def LCTemplate.setCacheProperties (t : LCTemplate) (nc ip : Nat) : LCTemplate :=
  LCTemplate.markCacheDirty { t with ncache := nc, interpMode := ip }

/-- `LCTemplate.set_cache(order)`: sample the template (value for order 0,
phase derivative otherwise) on the `ncache+1`-point grid over [0,1], store
it and clear the order's dirty flag. -/
def LCTemplate.setCache (t : LCTemplate) (order : Nat) : LCTemplate :=
  let pts := linspace01 t.ncache
  let grid := if order = 0 then pts.map (fun phi => t.evalPt phi 3 false)
    else pts.map (fun phi => t.derivPt phi 3 order)
  { t with cache := alSet t.cache order grid,
           cacheDirty := alSet t.cacheDirty order false }

/-- `LCTemplate.get_cache(order)`: recompute if dirty, recompute again if
the stored length mismatches `ncache+1`, return the stored grid. -/
def LCTemplate.getCache (t : LCTemplate) (order : Nat) : LCTemplate × List ℚ :=
  let t1 := if lookupDirty t.cacheDirty order then t.setCache order else t
  let t2 := if ((alGet t1.cache order).getD []).length ≠ t1.ncache + 1
    then t1.setCache order else t1
  (t2, (alGet t2.cache order).getD [])

/-- One phase of the `interpolation == 1` (linear) branch: `lo`, fractions,
`grid[lo]*dlo + grid[lo+1]*dhi`; fails on an out-of-range index (a NaN
phase also fails: its cast index is out of range). -/
def linInterpPt (grid : List ℚ) (nc : Nat) (ph : Option ℚ) : Except CacheErr ℚ :=
  match ph with
  | none => .error .indexError
  | some q =>
      let ilo := truncQ (q * (nc : ℚ))
      let dhi := q * (nc : ℚ) - (ilo : ℚ)
      match listIndex grid ilo, listIndex grid (ilo + 1) with
      | some glo, some ghi => .ok (glo * (1 - dhi) + ghi * dhi)
      | _, _ => .error .indexError

/-- `LCTemplate.eval_cache(phases, order)`: fetch the cached grid, then
dispatch on the interpolation mode (0 nearest, 1 linear, otherwise a
NotImplementedError). -/
def LCTemplate.evalCache (t : LCTemplate) (phases : List (Option ℚ)) (order : Nat) :
    Except CacheErr (LCTemplate × List ℚ × Option Nat) :=
  let tg := t.getCache order
  if t.interpMode = 0 then
    match evalCacheNearest tg.2 t.ncache phases with
    | .ok vd => .ok (tg.1, vd)
    | .error e => .error e
  else if t.interpMode = 1 then
    match phases.mapM (linInterpPt tg.2 t.ncache) with
    | .ok v => .ok (tg.1, v, none)
    | .error e => .error e
  else .error .notImplemented

/-! ## Parameter vector manager (`set_parameters`) -/

/-- Modelled from the spec: `LCPrimitive.set_parameters` consumes a slice
matching its free-parameter count, stores it, and returns its own validity
flag; failure does not prevent the store. -/
def primSetParams (pr : LCPrimitive) (q : List ℚ) : LCPrimitive × Bool :=
  ({ pr with p := q }, pr.valid q)

/-- The slicing loop of `LCTemplate.set_parameters`: consume each
primitive's slice in order, accumulating the conjunction of the per
primitive success flags; return the updated primitives, the unconsumed
remainder (handed to the NormMap) and the aggregated flag. -/
def setParamsAux : List LCPrimitive → List ℚ → List LCPrimitive × List ℚ × Bool
  | [], q => ([], q, true)
  | pr :: ps, q =>
      let n := pr.p.length
      let r1 := primSetParams pr (q.take n)
      let r2 := setParamsAux ps (q.drop n)
      (r1.1 :: r2.1, r2.2.1, r1.2 && r2.2.2)

/-- `LCTemplate.set_parameters(p)`: slice into the primitives, hand the
rest to the NormMap, mark the cache dirty, return the aggregated flag. -/
def LCTemplate.setParameters (t : LCTemplate) (p : List ℚ) : LCTemplate × Bool :=
  let r := setParamsAux t.primitives p
  (LCTemplate.markCacheDirty
    { t with primitives := r.1, norms := t.norms.setParams r.2.1 }, r.2.2)

/-! ## Structural edits (`swap_primitive`, `delete_primitive`, `add_primitive`) -/

/-- `LCTemplate.swap_primitive(index, ptype)`: replace the primitive in
place (`convert_primitive` is external; the converted primitive is
supplied).  NB the source does not mark the cache dirty here. -/
def LCTemplate.swapPrimitive (t : LCTemplate) (index : Nat) (newPrim : LCPrimitive) :
    LCTemplate :=
  { t with primitives := t.primitives.set index newPrim }

/-- The comprehension `[deepcopy(p) for ip, p in enumerate(prims) if not
index == ip]`, with `ip` counting from `c`. -/
def keepNe (idx : Int) : Nat → List LCPrimitive → List LCPrimitive
  | _, [] => []
  | c, pr :: ps => if idx = (c : Int) then keepNe idx (c + 1) ps
      else pr :: keepNe idx (c + 1) ps

/-- `LCTemplate.delete_primitive(index, inplace)`: refuse on a single
primitive; adjust a negative index; build the retained (copied) primitives
and a NormMap with the component deleted; either mutate the receiver and
return nothing, or leave it untouched and return a freshly constructed
template.  The result pairs the receiver's state after the call with the
returned value. -/
def LCTemplate.deletePrimitive (t : LCTemplate) (index : Int) (inplace : Bool) :
    Except InitErr (LCTemplate × Option LCTemplate) :=
  if t.primitives.length = 1 then .error .valueError
  else
    let idx : Int := if index < 0 then index + (t.primitives.length : Int) else index
    let newprims := keepNe idx 0 t.primitives
    let newnorms := t.norms.deleteComponent idx.toNat
    if inplace then .ok ({ t with primitives := newprims, norms := newnorms }, none)
    else
      match lctemplateNew newprims (some (.map newnorms)) with
      | .ok nt => .ok (t, some nt)
      | .error e => .error e

/-- `LCTemplate.add_primitive(prim, norm, inplace)`: append a (copied)
primitive, add a NormMap component at the given weight, and either mutate
the receiver (returning nothing) or return a freshly constructed
template. -/
def LCTemplate.addPrimitive (t : LCTemplate) (prim : LCPrimitive) (norm : ℚ)
    (inplace : Bool) : Except InitErr (LCTemplate × Option LCTemplate) :=
  let nprims := t.primitives ++ [prim]
  let nnorms := t.norms.addComponent norm
  if inplace then .ok ({ t with norms := nnorms, primitives := nprims }, none)
  else
    match lctemplateNew nprims (some (.map nnorms)) with
    | .ok nt => .ok (t, some nt)
    | .error e => .error e

/-! ## Random sampler (`LCTemplate.random`) -/

/-- The per-photon partition probabilities
`np.append(norms/N*nDC, pDC[None,:], axis=0)` for one photon of source
weight `w`: each component's share, then the background share. -/
def partitionProbs (norms : List ℚ) (w : ℚ) : List ℚ :=
  let N := norms.sum
  norms.map (fun ni => ni / N * (w * N)) ++ [1 - w * N]

/-- The bucket-assignment loop `for i in np.arange(len(prims))[::-1]:
comps[Q < cpp[i]] = i` for one photon: `assignAux cpp q i c` is the
assignment after the loop has run over indices `i-1, …, 0` starting from
current value `c`. -/
def assignAux (cpp : List ℚ) (q : ℚ) : Nat → Nat → Nat
  | 0, c => c
  | i + 1, c => assignAux cpp q i (if q < cpp.getD i 0 then i else c)

/-- A photon's assigned bucket: the loop starting from
`comps = np.full(n, len(prims))`. -/
def assignComp (cpp : List ℚ) (q : ℚ) (nprim : Nat) : Nat :=
  assignAux cpp q nprim nprim

/-- One photon of `LCTemplate.random`: cumulative partition probabilities,
bucket assignment from the uniform variate `q`, then the phase — the
assigned primitive's own random draw, or for the background bucket the
uniform variate `u` (`np.random.rand`, uniform on [0,1)). -/
def LCTemplate.randomPhoton (t : LCTemplate) (w e q u : ℚ) (primDraw : Nat → ℚ) :
    Nat × ℚ :=
  let cpp := cumsum (partitionProbs (t.norms.weights e) w)
  let c := assignComp cpp q t.primitives.length
  (c, if c = t.primitives.length then u else primDraw c)

/-! ## Bridge template (`LCBridgeTemplate`) -/

structure LCBridgeTemplate where
  primitives : List LCPrimitive
  norms : NormMap
  p1 : LCPrimitive
  p2 : LCPrimitive

/-- `LCBridgeTemplate.__init__`: with `norms` omitted the default-norms
line evaluates `len(primitives + 1)` — adding a list and an int — an
unconditional TypeError; otherwise run the bridge `_sanity_checks`
(`len(primitives) == len(norms) - 1`), then remember the last two
primitives as `p1 = primitives[-2]`, `p2 = primitives[-1]` — which raises
an IndexError when the (validated) primitive list has fewer than two
entries. -/
def lcbridgeNew (prims : List LCPrimitive) (normsArg : Option NormsArg) :
    Except InitErr LCBridgeTemplate :=
  match normsArg with
  | none => .error .typeError
  | some a =>
      let nm : NormMap := match a with | .map m => m | .tuple v => normAngles v
      if (prims.length : Int) = (nm.n : Int) - 1 then
        if 2 ≤ prims.length then
          .ok { primitives := prims, norms := nm,
                p1 := prims.getD (prims.length - 2) defaultPrimitive,
                p2 := prims.getD (prims.length - 1) defaultPrimitive }
        else .error .indexError
      else .error .valueError

namespace LCBridgeTemplate

/-- `nped = all_norms[0]` -/
def nped (t : LCBridgeTemplate) (e : ℚ) : ℚ := (t.norms.weights e).headD 0

/-- `norms = all_norms[1:]` -/
def ns (t : LCBridgeTemplate) (e : ℚ) : List ℚ := (t.norms.weights e).tail

/-- `n1` of `n1, n2 = norms[-2:]` -/
def n1 (t : LCBridgeTemplate) (e : ℚ) : ℚ := (t.ns e).getD ((t.ns e).length - 2) 0

/-- `n2` of `n1, n2 = norms[-2:]` -/
def n2 (t : LCBridgeTemplate) (e : ℚ) : ℚ := (t.ns e).getD ((t.ns e).length - 1) 0

/-- `l1 = p1.get_location()` -/
def loc1 (t : LCBridgeTemplate) : ℚ := t.p1.location

/-- `l2 = p2.get_location()` -/
def loc2 (t : LCBridgeTemplate) : ℚ := t.p2.location

/-- `delta = (l2 - l1) + (l2 < l1)`: the (possibly wrapped) interval length. -/
def delta (t : LCBridgeTemplate) : ℚ :=
  (t.loc2 - t.loc1) + (if t.loc2 < t.loc1 then 1 else 0)

/-- `f11 = p1(l1)` -/
def f11 (t : LCBridgeTemplate) (e : ℚ) : ℚ := t.p1.eval t.loc1 e

/-- `f12 = p1(l2)` -/
def f12 (t : LCBridgeTemplate) (e : ℚ) : ℚ := t.p1.eval t.loc2 e

/-- `f21 = p2(l1)` -/
def f21 (t : LCBridgeTemplate) (e : ℚ) : ℚ := t.p2.eval t.loc1 e

/-- `f22 = p2(l2)` -/
def f22 (t : LCBridgeTemplate) (e : ℚ) : ℚ := t.p2.eval t.loc2 e

/-- `d = f11*f22 - f12*f21` -/
def ddet (t : LCBridgeTemplate) (e : ℚ) : ℚ :=
  t.f11 e * t.f22 e - t.f12 e * t.f21 e

/-- `i1`: `p1`'s definite integral over the (possibly wrapped) interval. -/
def i1 (t : LCBridgeTemplate) (e : ℚ) : ℚ :=
  if t.loc1 < t.loc2 then t.p1.integrate t.loc1 t.loc2 e
  else 1 - t.p1.integrate t.loc2 t.loc1 e

/-- `i2`: `p2`'s definite integral over the (possibly wrapped) interval. -/
def i2 (t : LCBridgeTemplate) (e : ℚ) : ℚ :=
  if t.loc1 < t.loc2 then t.p2.integrate t.loc1 t.loc2 e
  else 1 - t.p2.integrate t.loc2 t.loc1 e

/-- `k = nped * (1 - (i1*(f22-f21) + i2*(f11-f12))/(d*delta))**-1`:
the pedestal coefficient. -/
def kped (t : LCBridgeTemplate) (e : ℚ) : ℚ :=
  t.nped e *
    (1 - (t.i1 e * (t.f22 e - t.f21 e) + t.i2 e * (t.f11 e - t.f12 e)) /
      (t.ddet e * t.delta))⁻¹

/-- `dn1 = k/(delta*d)*(f21-f22)` -/
def dn1 (t : LCBridgeTemplate) (e : ℚ) : ℚ :=
  t.kped e / (t.delta * t.ddet e) * (t.f21 e - t.f22 e)

/-- `dn2 = k/(delta*d)*(f12-f11)` -/
def dn2 (t : LCBridgeTemplate) (e : ℚ) : ℚ :=
  t.kped e / (t.delta * t.ddet e) * (t.f12 e - t.f11 e)

/-- The inclusive interval mask at one phase, wrapping when `l2 < l1`. -/
def maskB (t : LCBridgeTemplate) (phi : ℚ) : Bool :=
  if t.loc1 < t.loc2 then decide (t.loc1 ≤ phi ∧ phi ≤ t.loc2)
  else decide (phi ≥ t.loc1 ∨ phi ≤ t.loc2)

/-- `LCBridgeTemplate._get_scales` at one phase, with the 0/1 mask value
`mv` made explicit: pedestal `k/delta*mask`, the untouched leading norms,
and the rescaled `n1 + dn1*mask`, `n2 + dn2*mask`; the total is the sum of
all norms including the pedestal. -/
def scalesWithMask (t : LCBridgeTemplate) (e mv : ℚ) : ℚ × List ℚ × ℚ :=
  (t.kped e / t.delta * mv,
   (t.ns e).take ((t.ns e).length - 2) ++
     [t.n1 e + t.dn1 e * mv, t.n2 e + t.dn2 e * mv],
   (t.norms.weights e).sum)

/-- The inherited `LCTemplate.__call__` body over the bridge `_get_scales`,
with the mask value made explicit. -/
def callWithMask (t : LCBridgeTemplate) (mv phi e : ℚ) (suppressBg : Bool) : ℚ :=
  let s := t.scalesWithMask e mv
  let rvals := mixtureFold s.1 s.2.1 t.primitives phi e
  if suppressBg then rvals / s.2.2 else (1 - s.2.2) + rvals

/-- `LCBridgeTemplate.__call__` (non-cache branch) at one phase. -/
def bcall (t : LCBridgeTemplate) (phi e : ℚ) (suppressBg : Bool) : ℚ :=
  t.callWithMask (if t.maskB phi then 1 else 0) phi e suppressBg

end LCBridgeTemplate

/-! ## GaussianPrior -/

/-- The state of a `GaussianPrior`: the (wrapped, mask-filtered) targets
`x0`, the squares of the stored widths `s0 = width*sqrt(2)` (only the
square is ever used, and it equals `2*width^2` exactly), the filtered
periodic flags, and the full-length enable mask. -/
structure GaussianPrior where
  x0 : List ℚ
  s0sq : List ℚ
  mod : List Bool
  mask : List Bool

/-- `l[mask]` — boolean-mask filtering. -/
def maskFilter {α : Type} : List Bool → List α → List α
  | b :: bs, x :: xs => if b then x :: maskFilter bs xs else maskFilter bs xs
  | _, _ => []

/-- `rvals = zeros(len(mask)); rvals[mask] = vals` — scatter the values
back to the enabled positions, zero elsewhere. -/
def scatterMasked : List Bool → List ℚ → List ℚ
  | [], _ => []
  | b :: bs, vs =>
      if b then vs.headD 0 :: scatterMasked bs vs.tail else 0 :: scatterMasked bs vs

/-- `GaussianPrior.__init__(locations, widths, mod, mask)`: wrap the
periodic locations modulo 1, store `s0 = widths*sqrt(2)` (kept here as its
exact square `2*width^2`), and filter all three arrays by the mask when one
is given. -/
def gaussianPriorNew (locations widths : List ℚ) (mod : List Bool)
    (mask : Option (List Bool)) : GaussianPrior :=
  let x0 := List.zipWith (fun m l => if m then wrap1 l else l) mod locations
  let s0sq := widths.map (fun w => 2 * w ^ 2)
  match mask with
  | none => { x0 := x0, s0sq := s0sq, mod := mod,
              mask := List.replicate locations.length true }
  | some mk => { x0 := maskFilter mk x0, s0sq := maskFilter mk s0sq,
                 mod := maskFilter mk mod, mask := mk }

/-- `GaussianPrior.gradient(parameters)`: zeros when nothing is enabled;
otherwise filter the parameters by the mask, wrap the periodic ones, and
scatter `2*(wrapped - x0)/s0**2` back to the enabled positions. -/
def GaussianPrior.gradient (gp : GaussianPrior) (params : List ℚ) : List ℚ :=
  if gp.mask.any id then
    let pm := maskFilter gp.mask params
    let wrapped := List.zipWith (fun m x => if m then wrap1 x else x) gp.mod pm
    let vals := List.zipWith (fun xt s => 2 * (xt.1 - xt.2) / s)
      (wrapped.zip gp.x0) gp.s0sq
    scatterMasked gp.mask vals
  else List.replicate params.length 0

/-- The per-entry gradient the amended claim describes:
`(wrap_if_periodic(param) - wrap_if_periodic(location)) / width^2` on the
enabled entries (equal to `2*(wrapped - target)/s0^2` with
`s0 = width*sqrt(2)`), zero elsewhere. -/
def claimedGrad : List Bool → List ℚ → List ℚ → List Bool → List ℚ → List ℚ
  | b :: bs, l :: ls, w :: ws, m :: ms, x :: xs =>
      (if b then ((if m then wrap1 x else x) - (if m then wrap1 l else l)) / w ^ 2
       else 0) :: claimedGrad bs ls ws ms xs
  | _, _, _, _, _ => []

/-! ## Characterizations used to state the claims -/

/-- The per-primitive parameter slices of a flattened vector, in
concatenation order. -/
def paramChunks : List LCPrimitive → List ℚ → List (List ℚ)
  | [], _ => []
  | pr :: ps, q => q.take pr.p.length :: paramChunks ps (q.drop pr.p.length)

/-- Total number of primitive parameters. -/
def primParamCount (ps : List LCPrimitive) : Nat := (ps.map (fun pr => pr.p.length)).sum

/-! ## Concrete instances used by witnesses and counterexamples -/

/-- A linear test primitive: value `phi + 1`, unit-slope integral. -/
def primLin : LCPrimitive :=
  { shape := fun _ phi _ => phi + 1
    dshape := fun _ _ _ _ => 1
    integShape := fun _ a b _ => b - a
    locShape := fun _ => 1 / 4
    p := [1 / 4]
    valid := fun _ => true }

/-- An affine test primitive: value `2*phi + 1`. -/
def primAff : LCPrimitive :=
  { shape := fun _ phi _ => 2 * phi + 1
    dshape := fun _ _ _ _ => 2
    integShape := fun _ a b _ => b * b - a * a + (b - a)
    locShape := fun _ => 3 / 4
    p := [3 / 4]
    valid := fun _ => true }

/-- A concrete bridge template over `primLin`, `primAff` with pedestal
weight 1/10 and peak weights 2/5, 2/5. -/
def bridgeT : LCBridgeTemplate :=
  { primitives := [primLin, primAff]
    norms := normAngles [1 / 10, 2 / 5, 2 / 5]
    p1 := primLin
    p2 := primAff }

/-- The identity-in-phase test primitive (value `phi`). -/
def primId : LCPrimitive :=
  { shape := fun _ phi _ => phi
    dshape := fun _ _ _ _ => 1
    integShape := fun _ a b _ => (b * b - a * a) / 2
    locShape := fun _ => 0
    p := [0]
    valid := fun _ => true }

/-- The constant-zero test primitive. -/
def primZero : LCPrimitive :=
  { shape := fun _ _ _ => 0
    dshape := fun _ _ _ _ => 0
    integShape := fun _ _ _ _ => 0
    locShape := fun _ => 0
    p := [0]
    valid := fun _ => true }

/-- The constant-two test primitive. -/
def primTwo : LCPrimitive :=
  { shape := fun _ _ _ => 2
    dshape := fun _ _ _ _ => 0
    integShape := fun _ a b _ => 2 * (b - a)
    locShape := fun _ => 0
    p := [0]
    valid := fun _ => true }

/-- The state of `LCTemplate([primId], [1/2])` after
`set_cache_properties(ncache=2, interpolation=0)`. -/
def cacheT : LCTemplate :=
  { primitives := [primId]
    norms := normAngles [1 / 2]
    ncache := 2
    interpMode := 0
    cache := []
    cacheDirty := [] }

/-- A one-primitive template with pulsed fraction 1/4, used against
`single_component`. -/
def singleT : LCTemplate :=
  { primitives := [primTwo]
    norms := normAngles [1 / 4]
    ncache := 1000
    interpMode := 1
    cache := []
    cacheDirty := [] }

/-- A two-primitive template used for the structural-edit claims. -/
def editT : LCTemplate :=
  { primitives := [primLin, primAff]
    norms := normAngles [1 / 3, 1 / 3]
    ncache := 1000
    interpMode := 1
    cache := []
    cacheDirty := [] }

/-- A prior over one parameter: target 0, width 1, not periodic, enabled. -/
def priorC : GaussianPrior := gaussianPriorNew [0] [1] [false] none

/-- `cacheT` after `set_cache(0)` followed by
`swap_primitive(0, <primitive converting to primZero>)`. -/
def staleT : LCTemplate := (cacheT.setCache 0).swapPrimitive 0 primZero

/-! ## Helper lemmas -/

theorem mixtureFold_eq (r0 : ℚ) (ws : List ℚ) (ps : List LCPrimitive) (phi e : ℚ) :
    mixtureFold r0 ws ps phi e =
      r0 + (List.zipWith (fun w pr => w * pr.eval phi e) ws ps).sum := by
  induction ws generalizing r0 ps with
  | nil => simp [mixtureFold]
  | cons w ws ih =>
      cases ps with
      | nil => simp [mixtureFold]
      | cons pr ps =>
          simp only [mixtureFold, List.zip_cons_cons, List.foldl_cons,
            List.zipWith_cons_cons, List.sum_cons] at *
          rw [ih]
          ring

theorem lookupDirty_mark (l : List (Nat × Bool)) (k : Nat) :
    lookupDirty (l.map (fun kv => (kv.1, true))) k = true := by
  induction l with
  | nil => simp [lookupDirty]
  | cons kv rest ih =>
      by_cases h : kv.1 == k
      · simp [lookupDirty, List.find?, h]
      · simpa [lookupDirty, List.find?, h] using ih

theorem assignAux_skip (cpp : List ℚ) (q : ℚ) :
    ∀ (i : Nat) (c : Nat), (∀ j, j < i → ¬ q < cpp.getD j 0) →
      assignAux cpp q i c = c := by
  intro i
  induction i with
  | zero => intro c _; rfl
  | succ n ih =>
      intro c h
      rw [assignAux, if_neg (h n (Nat.lt_succ_self n))]
      exact ih c (fun j hj => h j (hj.trans (Nat.lt_succ_self n)))

theorem assignAux_found (cpp : List ℚ) (q : ℚ) :
    ∀ (i : Nat) (c : Nat) (j : Nat), j < i → q < cpp.getD j 0 →
      (∀ k, k < j → ¬ q < cpp.getD k 0) → assignAux cpp q i c = j := by
  intro i
  induction i with
  | zero => intro c j hj; omega
  | succ n ih =>
      intro c j hj hq hmin
      rcases Nat.lt_succ_iff_lt_or_eq.mp hj with h | h
      · rw [assignAux]
        exact ih _ j h hq hmin
      · subst h
        rw [assignAux, if_pos hq]
        exact assignAux_skip cpp q j j hmin

theorem setParamsAux_eq (ps : List LCPrimitive) (q : List ℚ) :
    setParamsAux ps q =
      ((ps.zip (paramChunks ps q)).map (fun x => { x.1 with p := x.2 }),
       q.drop (primParamCount ps),
       (ps.zip (paramChunks ps q)).all (fun x => x.1.valid x.2)) := by
  induction ps generalizing q with
  | nil => simp [setParamsAux, paramChunks, primParamCount]
  | cons pr ps ih =>
      simp only [setParamsAux, primSetParams, paramChunks, primParamCount,
        List.map_cons, List.sum_cons, List.zip_cons_cons, List.all_cons, ih,
        List.drop_drop]

theorem keepNe_lt (idx : Int) :
    ∀ (l : List LCPrimitive) (c : Nat), idx < (c : Int) → keepNe idx c l = l := by
  intro l
  induction l with
  | nil => intro c _; rfl
  | cons pr ps ih =>
      intro c hc
      rw [keepNe, if_neg (by omega), ih (c + 1) (by push_cast; omega)]

theorem keepNe_eraseIdx :
    ∀ (l : List LCPrimitive) (c j : Nat), keepNe ((c + j : Nat) : Int) c l = l.eraseIdx j := by
  intro l
  induction l with
  | nil => intro c j; rfl
  | cons pr ps ih =>
      intro c j
      cases j with
      | zero =>
          rw [keepNe, if_pos (by push_cast; ring), List.eraseIdx]
          exact keepNe_lt _ ps (c + 1) (by push_cast; omega)
      | succ j =>
          rw [keepNe, if_neg (by push_cast; omega), List.eraseIdx]
          have := ih (c + 1) j
          rw [show ((c + (j + 1) : Nat) : Int) = ((c + 1 + j : Nat) : Int) by push_cast; ring]
          rw [this]

theorem getD_append_fst (l : List ℚ) (x y : ℚ) : (l ++ [x, y]).getD l.length 0 = x := by
  induction l with
  | nil => rfl
  | cons a l ih => simpa using ih

theorem getD_append_snd (l : List ℚ) (x y : ℚ) :
    (l ++ [x, y]).getD (l.length + 1) 0 = y := by
  induction l with
  | nil => rfl
  | cons a l ih => simpa using ih

theorem take_length_append (l m : List ℚ) : (l ++ m).take l.length = l := by
  induction l with
  | nil => rfl
  | cons a l ih => simp [ih]

theorem scatter_eq_claimedGrad :
    ∀ (mask mod : List Bool) (locs widths params : List ℚ),
      locs.length = mask.length → widths.length = mask.length →
      mod.length = mask.length → params.length = mask.length →
      scatterMasked mask
        (List.zipWith (fun xt s => 2 * (xt.1 - xt.2) / s)
          ((List.zipWith (fun m x => if m then wrap1 x else x)
              (maskFilter mask mod) (maskFilter mask params)).zip
            (maskFilter mask
              (List.zipWith (fun m l => if m then wrap1 l else l) mod locs)))
          (maskFilter mask (widths.map (fun w => 2 * w ^ 2)))) =
      claimedGrad mask locs widths mod params := by
  intro mask
  induction mask with
  | nil => intro mod locs widths params _ _ _ _; rfl
  | cons b bs ih =>
      intro mod locs widths params h1 h2 h3 h4
      cases mod with
      | nil => simp at h3
      | cons m ms =>
      cases locs with
      | nil => simp at h1
      | cons l ls =>
      cases widths with
      | nil => simp at h2
      | cons w ws =>
      cases params with
      | nil => simp at h4
      | cons x xs =>
      have h1' : ls.length = bs.length := by simpa using h1
      have h2' : ws.length = bs.length := by simpa using h2
      have h3' : ms.length = bs.length := by simpa using h3
      have h4' : xs.length = bs.length := by simpa using h4
      cases b with
      | false =>
          simp only [maskFilter, Bool.false_eq_true, if_false, List.zipWith_cons_cons,
            List.map_cons, scatterMasked, claimedGrad]
          exact congrArg (0 :: ·) (ih ms ls ws xs h1' h2' h3' h4')
      | true =>
          simp only [maskFilter, if_true, List.zipWith_cons_cons, List.map_cons,
            List.zip_cons_cons, scatterMasked, claimedGrad, List.headD_cons,
            List.tail_cons]
          refine congrArg₂ (· :: ·) ?_ (ih ms ls ws xs h1' h2' h3' h4')
          rw [mul_div_mul_left _ _ (two_ne_zero)]

theorem claimedGrad_zero :
    ∀ (mask mod : List Bool) (locs widths params : List ℚ),
      locs.length = mask.length → widths.length = mask.length →
      mod.length = mask.length → params.length = mask.length →
      mask.any id = false →
      claimedGrad mask locs widths mod params = List.replicate params.length 0 := by
  intro mask
  induction mask with
  | nil =>
      intro mod locs widths params _ _ _ h4 _
      rw [List.length_eq_zero.mp h4]
      rfl
  | cons b bs ih =>
      intro mod locs widths params h1 h2 h3 h4 hany
      have hb : b = false := by
        cases b
        · rfl
        · simp at hany
      subst hb
      have hbs : bs.any id = false := by simpa using hany
      cases mod with
      | nil => simp at h3
      | cons m ms =>
      cases locs with
      | nil => simp at h1
      | cons l ls =>
      cases widths with
      | nil => simp at h2
      | cons w ws =>
      cases params with
      | nil => simp at h4
      | cons x xs =>
      have h1' : ls.length = bs.length := by simpa using h1
      have h2' : ws.length = bs.length := by simpa using h2
      have h3' : ms.length = bs.length := by simpa using h3
      have h4' : xs.length = bs.length := by simpa using h4
      simp only [claimedGrad, Bool.false_eq_true, if_false, List.length_cons,
        List.replicate]
      exact congrArg (0 :: ·) (ih ms ls ws xs h1' h2' h3' h4' hbs)

theorem fancyIndex_none (grid : List ℚ) :
    ∀ idxs : List Int, (∃ i ∈ idxs, listIndex grid i = none) →
      fancyIndex grid idxs = none := by
  intro idxs
  induction idxs with
  | nil => rintro ⟨i, hi, _⟩; simp at hi
  | cons i is ih =>
      rintro ⟨j, hj, hnone⟩
      rcases List.mem_cons.mp hj with h | h
      · subst h
        simp [fancyIndex, hnone]
      · rw [fancyIndex, ih ⟨j, h, hnone⟩]
        cases hx : listIndex grid i <;> rfl

theorem fancyIndex_some (grid : List ℚ) (g : Int → ℚ) :
    ∀ idxs : List Int, (∀ i ∈ idxs, listIndex grid i = some (g i)) →
      fancyIndex grid idxs = some (idxs.map g) := by
  intro idxs
  induction idxs with
  | nil => intro _; rfl
  | cons i is ih =>
      intro h
      have h1 := h i (List.mem_cons_self i is)
      have h2 := ih (fun j hj => h j (List.mem_cons_of_mem i hj))
      rw [fancyIndex, h1, h2, List.map_cons]

theorem listIndex_inrange (grid : List ℚ) (i : Int) (h0 : 0 ≤ i)
    (hl : i < (grid.length : Int)) :
    listIndex grid i = some (grid.getD i.toNat 0) := by
  have ht : i.toNat < grid.length := by omega
  rw [listIndex, if_pos h0, if_pos hl, List.getD_eq_getElem?_getD,
    List.get?_eq_getElem?, List.getElem?_eq_getElem ht]
  rfl

theorem listIndex_nan (grid : List ℚ) (h : (grid.length : Int) < 2 ^ 63) :
    listIndex grid nanIndex = none := by
  rw [listIndex, nanIndex, if_neg (by norm_num), if_neg (by omega)]

/-- The algebraic heart of the bridge solver: with nonzero determinant and
interval length, the rescale deltas and the pedestal cancel exactly at both
boundary values. -/
theorem bridge_delta_identity (K del d g11 g12 g21 g22 : ℚ)
    (hdel : del ≠ 0) (hd : d ≠ 0) (hdef : d = g11 * g22 - g12 * g21) :
    K / (del * d) * (g21 - g22) * g11 + K / (del * d) * (g12 - g11) * g21 + K / del = 0 ∧
    K / (del * d) * (g21 - g22) * g12 + K / (del * d) * (g12 - g11) * g22 + K / del = 0 := by
  subst hdef
  constructor <;> (field_simp; ring)

/-! ## Claim theorems -/

/-- C1: on a standard template, `__call__` with `use_cache=False` returns
the weighted sum of the primitives plus the background `1 - total`;
with `suppress_bg` the background is omitted and the weighted sum is
divided by the total instead. -/
theorem claim1_mixture_eval (t : LCTemplate) (phases : List ℚ) (e : ℚ) :
    t.call phases e false =
      phases.map (fun phi =>
        (List.zipWith (fun w pr => w * pr.eval phi e)
          (t.norms.weights e) t.primitives).sum + (1 - (t.norms.weights e).sum)) ∧
    t.call phases e true =
      phases.map (fun phi =>
        (List.zipWith (fun w pr => w * pr.eval phi e)
          (t.norms.weights e) t.primitives).sum / (t.norms.weights e).sum) := by
  constructor <;>
  · simp only [LCTemplate.call, LCTemplate.evalPt, LCTemplate.getScales,
      Bool.false_eq_true, if_false, if_true, mixtureFold_eq]
    congr 1
    funext phi
    ring

/-- C7: a photon's bucket is the smallest component index whose cumulative
partition probability exceeds its uniform variate `q` (the downward scan's
final overwrite); when no component threshold exceeds `q`, the photon lands
in the background bucket and its phase is the uniform variate `u`. -/
theorem claim7_random_partition (t : LCTemplate) (w e q u : ℚ) (primDraw : Nat → ℚ) :
    ((∀ i, i < t.primitives.length →
        ¬ q < (cumsum (partitionProbs (t.norms.weights e) w)).getD i 0) ∧
      (t.randomPhoton w e q u primDraw).1 = t.primitives.length ∧
      (t.randomPhoton w e q u primDraw).2 = u) ∨
    ((t.randomPhoton w e q u primDraw).1 < t.primitives.length ∧
      q < (cumsum (partitionProbs (t.norms.weights e) w)).getD
        (t.randomPhoton w e q u primDraw).1 0 ∧
      (∀ j, j < (t.randomPhoton w e q u primDraw).1 →
        ¬ q < (cumsum (partitionProbs (t.norms.weights e) w)).getD j 0) ∧
      (t.randomPhoton w e q u primDraw).2 =
        primDraw (t.randomPhoton w e q u primDraw).1) := by
  by_cases h : ∃ i, i < t.primitives.length ∧
      q < (cumsum (partitionProbs (t.norms.weights e) w)).getD i 0
  · right
    have hfind := Nat.find_spec h
    have hmin : ∀ k, k < Nat.find h →
        ¬ q < (cumsum (partitionProbs (t.norms.weights e) w)).getD k 0 := by
      intro k hk hqk
      exact Nat.find_min h hk ⟨hk.trans hfind.1, hqk⟩
    have hr : (t.randomPhoton w e q u primDraw).1 = Nat.find h := by
      simp only [LCTemplate.randomPhoton, assignComp]
      exact assignAux_found _ q _ _ _ hfind.1 hfind.2 hmin
    refine ⟨?_, ?_, ?_, ?_⟩
    · rw [hr]; exact hfind.1
    · rw [hr]; exact hfind.2
    · rw [hr]; exact hmin
    · have hne : (t.randomPhoton w e q u primDraw).1 ≠ t.primitives.length := by
        rw [hr]; exact Nat.ne_of_lt hfind.1
      simp only [LCTemplate.randomPhoton] at hne ⊢
      simp only [assignComp] at hne ⊢
      rw [if_neg hne]
  · left
    push_neg at h
    have hr : (t.randomPhoton w e q u primDraw).1 = t.primitives.length := by
      simp only [LCTemplate.randomPhoton, assignComp]
      exact assignAux_skip _ q _ _ (fun j hj hqj => absurd hqj (by simpa using h j hj))
    refine ⟨fun i hi => by simpa using h i hi, hr, ?_⟩
    simp only [LCTemplate.randomPhoton, assignComp] at hr ⊢
    rw [if_pos hr]

/-- C9: `set_parameters` returns the conjunction of every primitive's own
success flag; each primitive's slice and the NormMap's remainder stay
applied regardless of the flag (no rollback), and every cached order is
dirty afterwards. -/
theorem claim9_set_parameters (t : LCTemplate) (p : List ℚ) :
    ((t.setParameters p).2 = true ↔
      ∀ x ∈ t.primitives.zip (paramChunks t.primitives p), x.1.valid x.2 = true) ∧
    (t.setParameters p).1.primitives =
      (t.primitives.zip (paramChunks t.primitives p)).map
        (fun x => { x.1 with p := x.2 }) ∧
    (t.setParameters p).1.norms.p =
      (p.drop (primParamCount t.primitives)).take t.norms.p.length ∧
    ∀ k, lookupDirty (t.setParameters p).1.cacheDirty k = true := by
  simp only [LCTemplate.setParameters, LCTemplate.markCacheDirty, setParamsAux_eq,
    NormMap.setParams]
  exact ⟨List.all_eq_true, trivial, trivial, fun k => lookupDirty_mark _ k⟩

/-- C5 (counterexample to the claim as stated): for the enabled,
non-periodic prior with target 0 and width 1, the code's gradient at
parameter 3 is `[3]` — the claimed value `2*(wrapped - target)/width^2`
would be `[6]`. -/
theorem claim5_counterexample :
    priorC.gradient [3] = [3] ∧ ¬ ([3] : List ℚ) = [2 * ((3 : ℚ) - 0) / 1 ^ 2] := by
  constructor
  · norm_num [priorC, gaussianPriorNew, GaussianPrior.gradient, maskFilter,
      scatterMasked, wrap1]
  · norm_num

/-- C5 (amended): `gradient` returns, on each enabled entry,
`2*(wrapped_param - target)/s0^2` where `s0 = width*sqrt(2)` — that is,
`(wrapped_param - target)/width^2` — with wrapping modulo 1 applied exactly
where the periodic flag is set, and zero on every non-enabled entry. -/
theorem claim5_prior_gradient (locs widths : List ℚ) (mod mask : List Bool)
    (params : List ℚ)
    (h1 : locs.length = mask.length) (h2 : widths.length = mask.length)
    (h3 : mod.length = mask.length) (h4 : params.length = mask.length) :
    (gaussianPriorNew locs widths mod (some mask)).gradient params =
      claimedGrad mask locs widths mod params := by
  simp only [gaussianPriorNew, GaussianPrior.gradient]
  by_cases hany : mask.any id
  · simp only [hany, if_true]
    exact scatter_eq_claimedGrad mask mod locs widths params h1 h2 h3 h4
  · simp only [hany, if_false, Bool.false_eq_true]
    exact (claimedGrad_zero mask mod locs widths params h1 h2 h3 h4
      (Bool.not_eq_true _ ▸ eq_false_of_ne_true hany)).symm

/-- Witness for C5 at concrete arrays: a single enabled, periodic entry
with target 1/2, width 2, parameter 9/4. -/
theorem claim5_prior_gradient_witness :
    ([(1 : ℚ) / 2] : List ℚ).length = ([true] : List Bool).length ∧
    (gaussianPriorNew [1 / 2] [2] [true] (some [true])).gradient [9 / 4] =
      claimedGrad [true] [1 / 2] [2] [true] [9 / 4] :=
  ⟨rfl, claim5_prior_gradient [1 / 2] [2] [true] [true] [9 / 4] rfl rfl rfl rfl⟩

/-- C8: in nearest-point cache evaluation, a phase array containing NaNs
(whose finite phases index in range) does not raise — the NaN-derived
indices (which overflow as the int64 minimum) trigger the caught
IndexError, get remapped to 0 and the retried lookup is returned together
with the NaN-count diagnostic; with no NaN present, an out-of-range index
re-raises the indexing error. -/
theorem claim8_eval_cache_nan (grid : List ℚ) (nc : Nat) (phases : List (Option ℚ)) :
    (0 < grid.length → (grid.length : Int) < 2 ^ 63 →
      (∃ p ∈ phases, p = none) →
      (∀ q : ℚ, some q ∈ phases → 0 ≤ ToIdxNearest nc (some q) ∧
        ToIdxNearest nc (some q) < (grid.length : Int)) →
      evalCacheNearest grid nc phases =
        .ok (phases.map (fun p => match p with
              | none => grid.getD 0 0
              | some q => grid.getD (ToIdxNearest nc (some q)).toNat 0),
          some ((phases.filter (fun p => p.isNone)).length))) ∧
    ((∀ p ∈ phases, p.isSome) →
      fancyIndex grid (phases.map (ToIdxNearest nc)) = none →
      evalCacheNearest grid nc phases = .error .indexError) := by
  constructor
  · intro h0 hlen hnan hin
    obtain ⟨pn, hpn, hpe⟩ := hnan
    have hfail : fancyIndex grid (phases.map (ToIdxNearest nc)) = none := by
      refine fancyIndex_none grid _ ⟨nanIndex, ?_, listIndex_nan grid hlen⟩
      exact List.mem_map.mpr ⟨pn, hpn, by rw [hpe]; rfl⟩
    have hpos : 0 < (phases.filter (fun p => p.isNone)).length := by
      refine List.length_pos.mpr (List.ne_nil_of_mem (a := (none : Option ℚ)) ?_)
      exact List.mem_filter.mpr ⟨hpe ▸ hpn, rfl⟩
    have hzip : ∀ l : List (Option ℚ),
        (l.zip (l.map (ToIdxNearest nc))).map
          (fun pi => if pi.1.isNone then 0 else pi.2) =
        l.map (fun p => if p.isNone then 0 else ToIdxNearest nc p) := by
      intro l
      induction l with
      | nil => rfl
      | cons p ps ih => simp only [List.map_cons, List.zip_cons_cons, ih]
    have hretry : fancyIndex grid
        (phases.map (fun p => if p.isNone then 0 else ToIdxNearest nc p)) =
        some ((phases.map (fun p => if p.isNone then 0 else ToIdxNearest nc p)).map
          (fun i => grid.getD i.toNat 0)) := by
      refine fancyIndex_some grid _ _ ?_
      intro i hi
      obtain ⟨p, hp, hpi⟩ := List.mem_map.mp hi
      cases p with
      | none =>
          subst hpi
          exact listIndex_inrange grid 0 le_rfl (by exact_mod_cast h0)
      | some q =>
          subst hpi
          have := hin q hp
          exact listIndex_inrange grid _ this.1 this.2
    rw [evalCacheNearest, hfail]
    simp only [hpos, if_pos, hzip, hretry, List.map_map]
    congr 1
    refine congrArg₂ _ (List.map_congr_left ?_) rfl
    intro p _
    cases p <;> rfl
  · intro hall hfail
    rw [evalCacheNearest, hfail]
    have hzero : (phases.filter (fun p => p.isNone)).length = 0 := by
      rw [List.filter_eq_nil_iff.mpr (fun p hp => by simp [Option.isNone_eq_false_iff,
        Option.isSome_iff_ne_none.mp (hall p hp)])]
      rfl
    rw [hzero]
    rfl

/-- Witness for C8: a 3-point grid with `ncache = 2`; the phase array
`[0, NaN, 1/2]` evaluates (NaN reading bin 0) with a NaN count of one,
while the NaN-free out-of-range phase `[2]` raises. -/
theorem claim8_eval_cache_nan_witness :
    evalCacheNearest [1, 2, 3] 2 [some 0, none, some (1 / 2)] =
      .ok ([1, 1, 2], some 1) ∧
    evalCacheNearest [1, 2, 3] 2 [some 2] = .error .indexError := by
  constructor
  · have h := (claim8_eval_cache_nan [1, 2, 3] 2 [some 0, none, some (1 / 2)]).1
      (by norm_num) (by norm_num)
      ⟨none, by simp, rfl⟩
      (by
        intro q hq
        simp only [List.mem_cons, List.not_mem_nil, or_false,
          Option.some.injEq, reduceCtorEq, false_or] at hq
        rcases hq with h | h <;> subst h <;>
          constructor <;> norm_num [ToIdxNearest, truncQ])
    rw [h]
    norm_num [ToIdxNearest, truncQ]
  · have h := (claim8_eval_cache_nan [1, 2, 3] 2 [some 2]).2
      (by intro p hp; simp at hp; subst hp; rfl)
      (by
        have : ToIdxNearest 2 (some 2) = 4 := by
          norm_num [ToIdxNearest, truncQ]
        rw [List.map_cons, List.map_nil, this, fancyIndex]
        rw [show listIndex [1, 2, 3] 4 = none by rw [listIndex]; norm_num])
    exact h

/-- C2: on a bridge template with nonzero boundary determinant and interval
length, the rescale deltas and the pedestal satisfy
`dn1*p1(lj) + dn2*p2(lj) + k/delta = 0` at both boundary locations, so the
evaluated template takes the same value with the interval mask on and off
there — the three pieces meet continuously — and at the (inclusive)
boundaries the template itself uses the masked branch. -/
theorem claim2_bridge_continuity (t : LCBridgeTemplate) (e : ℚ)
    (front : List LCPrimitive) (nsfront : List ℚ) (w0 a1 a2 : ℚ) (s : Bool)
    (hp : t.primitives = front ++ [t.p1, t.p2])
    (hw : t.norms.weights e = w0 :: (nsfront ++ [a1, a2]))
    (hl : nsfront.length = front.length)
    (hd : t.ddet e ≠ 0) (hdel : t.delta ≠ 0) :
    t.dn1 e * t.p1.eval t.loc1 e + t.dn2 e * t.p2.eval t.loc1 e +
      t.kped e / t.delta = 0 ∧
    t.dn1 e * t.p1.eval t.loc2 e + t.dn2 e * t.p2.eval t.loc2 e +
      t.kped e / t.delta = 0 ∧
    t.callWithMask 1 t.loc1 e s = t.callWithMask 0 t.loc1 e s ∧
    t.callWithMask 1 t.loc2 e s = t.callWithMask 0 t.loc2 e s ∧
    t.bcall t.loc1 e s = t.callWithMask 1 t.loc1 e s ∧
    t.bcall t.loc2 e s = t.callWithMask 1 t.loc2 e s := by
  have hid := bridge_delta_identity (t.kped e) t.delta (t.ddet e)
    (t.f11 e) (t.f12 e) (t.f21 e) (t.f22 e) hdel hd (by rw [LCBridgeTemplate.ddet])
  have h1 : t.dn1 e * t.p1.eval t.loc1 e + t.dn2 e * t.p2.eval t.loc1 e +
      t.kped e / t.delta = 0 := by
    simpa only [LCBridgeTemplate.dn1, LCBridgeTemplate.dn2, LCBridgeTemplate.f11,
      LCBridgeTemplate.f21] using hid.1
  have h2 : t.dn1 e * t.p1.eval t.loc2 e + t.dn2 e * t.p2.eval t.loc2 e +
      t.kped e / t.delta = 0 := by
    simpa only [LCBridgeTemplate.dn1, LCBridgeTemplate.dn2, LCBridgeTemplate.f12,
      LCBridgeTemplate.f22] using hid.2
  have hns : t.ns e = nsfront ++ [a1, a2] := by
    simp [LCBridgeTemplate.ns, hw]
  have hlen : (t.ns e).length = nsfront.length + 2 := by
    rw [hns]; simp
  have hx2 : (nsfront ++ [a1, a2]).length - 2 = nsfront.length := by simp
  have hx1 : (nsfront ++ [a1, a2]).length - 1 = nsfront.length + 1 := by simp
  have hn1 : t.n1 e = a1 := by
    rw [LCBridgeTemplate.n1, hns, hx2, getD_append_fst]
  have hn2 : t.n2 e = a2 := by
    rw [LCBridgeTemplate.n2, hns, hx1, getD_append_snd]
  have htake : (t.ns e).take ((t.ns e).length - 2) = nsfront := by
    rw [hns, hx2]
    exact take_length_append nsfront [a1, a2]
  have hmix : ∀ mv phi : ℚ,
      mixtureFold (t.kped e / t.delta * mv)
        ((t.ns e).take ((t.ns e).length - 2) ++
          [t.n1 e + t.dn1 e * mv, t.n2 e + t.dn2 e * mv]) t.primitives phi e =
      t.kped e / t.delta * mv +
        ((List.zipWith (fun w pr => w * pr.eval phi e) nsfront front).sum +
          ((a1 + t.dn1 e * mv) * t.p1.eval phi e +
           (a2 + t.dn2 e * mv) * t.p2.eval phi e)) := by
    intro mv phi
    rw [mixtureFold_eq, htake, hn1, hn2, hp,
      List.zipWith_append _ _ _ _ _ (by rw [hl]), List.sum_append]
    simp [add_assoc]
  have hcall : ∀ phi : ℚ,
      t.dn1 e * t.p1.eval phi e + t.dn2 e * t.p2.eval phi e +
        t.kped e / t.delta = 0 →
      t.callWithMask 1 phi e s = t.callWithMask 0 phi e s := by
    intro phi hphi
    simp only [LCBridgeTemplate.callWithMask, LCBridgeTemplate.scalesWithMask]
    rw [hmix 1 phi, hmix 0 phi]
    have hrv : t.kped e / t.delta * 1 +
        ((List.zipWith (fun w pr => w * pr.eval phi e) nsfront front).sum +
          ((a1 + t.dn1 e * 1) * t.p1.eval phi e +
           (a2 + t.dn2 e * 1) * t.p2.eval phi e)) =
        t.kped e / t.delta * 0 +
        ((List.zipWith (fun w pr => w * pr.eval phi e) nsfront front).sum +
          ((a1 + t.dn1 e * 0) * t.p1.eval phi e +
           (a2 + t.dn2 e * 0) * t.p2.eval phi e)) := by
      linear_combination hphi
    rw [hrv]
  have hm1 : t.maskB t.loc1 = true := by
    rw [LCBridgeTemplate.maskB]
    split
    · next hlt => simp [le_refl, le_of_lt hlt]
    · simp [le_refl]
  have hm2 : t.maskB t.loc2 = true := by
    rw [LCBridgeTemplate.maskB]
    split
    · next hlt => simp [le_refl, le_of_lt hlt]
    · simp [le_refl]
  refine ⟨h1, h2, hcall _ h1, hcall _ h2, ?_, ?_⟩
  · rw [LCBridgeTemplate.bcall, hm1]; simp
  · rw [LCBridgeTemplate.bcall, hm2]; simp

/-- Witness for C2 at a concrete bridge template: the determinant and
interval-length hypotheses hold and the masked/unmasked evaluations agree
at the first boundary location. -/
theorem claim2_bridge_continuity_witness :
    bridgeT.ddet 3 ≠ 0 ∧ bridgeT.delta ≠ 0 ∧
    bridgeT.callWithMask 1 bridgeT.loc1 3 false =
      bridgeT.callWithMask 0 bridgeT.loc1 3 false := by
  have hd : bridgeT.ddet 3 ≠ 0 := by
    norm_num [LCBridgeTemplate.ddet, LCBridgeTemplate.f11, LCBridgeTemplate.f12,
      LCBridgeTemplate.f21, LCBridgeTemplate.f22, LCBridgeTemplate.loc1,
      LCBridgeTemplate.loc2, LCPrimitive.eval, LCPrimitive.location, bridgeT,
      primLin, primAff]
  have hdel : bridgeT.delta ≠ 0 := by
    norm_num [LCBridgeTemplate.delta, LCBridgeTemplate.loc1, LCBridgeTemplate.loc2,
      LCPrimitive.location, bridgeT, primLin, primAff]
  exact ⟨hd, hdel,
    (claim2_bridge_continuity bridgeT 3 [] [] (1/10) (2/5) (2/5) false rfl rfl rfl
      hd hdel).2.2.1⟩

/-- C10: with `inplace=False`, `delete_primitive` returns a freshly
constructed template over the retained (copied) primitives and the new
NormMap — with a fresh, all-dirty cache — while the receiver is unchanged
(so its subsequent evaluations are unaffected); `add_primitive` behaves the
same way; with `inplace=True` both mutate the receiver and return
nothing. -/
theorem claim10_structural_edits (t : LCTemplate) (i : Nat) (prim : LCPrimitive)
    (x : ℚ) (h2 : 2 ≤ t.primitives.length) (hi : i < t.primitives.length)
    (hinv : (t.norms.weights 3).length = t.primitives.length) :
    t.deletePrimitive (i : Int) false =
      .ok (t, some { primitives := t.primitives.eraseIdx i,
                     norms := t.norms.deleteComponent i, ncache := 1000,
                     interpMode := 1, cache := [], cacheDirty := [] }) ∧
    t.deletePrimitive (i : Int) true =
      .ok ({ t with
              primitives := t.primitives.eraseIdx i,
              norms := t.norms.deleteComponent i }, none) ∧
    t.addPrimitive prim x false =
      .ok (t, some { primitives := t.primitives ++ [prim],
                     norms := t.norms.addComponent x, ncache := 1000,
                     interpMode := 1, cache := [], cacheDirty := [] }) ∧
    t.addPrimitive prim x true =
      .ok ({ t with
              norms := t.norms.addComponent x,
              primitives := t.primitives ++ [prim] }, none) := by
  have hne1 : ¬ t.primitives.length = 1 := by omega
  have hneg : ¬ ((i : Int) < 0) := by omega
  have hkeep : keepNe ((i : Nat) : Int) 0 t.primitives = t.primitives.eraseIdx i := by
    simpa using keepNe_eraseIdx t.primitives 0 i
  have hwlen : i < (t.norms.weights 3).length := by omega
  have hprimlen : (t.primitives.eraseIdx i).length = t.primitives.length - 1 := by
    rw [List.length_eraseIdx]
    simp [hi]
  have hcond : (t.primitives.eraseIdx i).length = (t.norms.deleteComponent i).n := by
    simp only [NormMap.deleteComponent, normAngles, rescaleDrop, List.length_map,
      hprimlen, List.length_eraseIdx]
    rw [hinv, if_pos hi]
  have hcond2 : (t.primitives ++ [prim]).length = (t.norms.addComponent x).n := by
    simp [NormMap.addComponent, normAngles, hinv]
  refine ⟨?_, ?_, ?_, ?_⟩
  · simp only [LCTemplate.deletePrimitive, hne1, if_false, hneg, hkeep, Int.toNat_natCast,
      lctemplateNew, hcond, if_pos, ite_false, Bool.false_eq_true]
  · simp only [LCTemplate.deletePrimitive, hne1, if_false, hneg, hkeep, Int.toNat_natCast,
      ite_false, if_true, ite_true]
  · simp only [LCTemplate.addPrimitive, lctemplateNew, hcond2, if_pos, ite_false,
      Bool.false_eq_true]
  · simp only [LCTemplate.addPrimitive, if_true, ite_true]

/-- Witness for C10 at a concrete two-primitive template: deleting the
first primitive without `inplace` leaves the receiver untouched and
returns the fresh template. -/
theorem claim10_structural_edits_witness :
    2 ≤ editT.primitives.length ∧
    editT.deletePrimitive ((0 : Nat) : Int) false =
      .ok (editT, some { primitives := editT.primitives.eraseIdx 0,
                         norms := editT.norms.deleteComponent 0, ncache := 1000,
                         interpMode := 1, cache := [], cacheDirty := [] }) :=
  ⟨by decide,
   (claim10_structural_edits editT 0 primZero (1 / 10) (by decide) (by decide)
     (by decide)).1⟩

/-- C3 (code bug): `single_component(0, 0.0, add_bg=True)` on a
one-primitive template of weight 1/4 over the constant-2 shape returns
`2*(1/4) + 1/4 = 3/4` — the source adds the summed weights `n.sum()` —
whereas adding the full background `1 - sum(w)` would give
`2*(1/4) + 3/4 = 5/4`. -/
theorem claim3_single_component_adds_total :
    singleT.singleComponent 0 0 3 true = 3 / 4 ∧
    ¬ ((3 : ℚ) / 4 = 2 * (1 / 4) + (1 - 1 / 4)) := by
  constructor
  · norm_num [singleT, LCTemplate.singleComponent, NormMap.weights, normAngles,
      LCPrimitive.eval, primTwo]
  · norm_num

/-- C4 (code bug): after `set_cache(0)` and then `swap_primitive`, order 0
is still clean, so the cache-backed path serves the grid `[1/2, 3/4, 1]`
computed from the pre-swap primitive, which differs from the grid
`[1/2, 1/2, 1/2]` the post-swap parameters produce once the cache is
actually invalidated. -/
theorem claim4_swap_primitive_keeps_cache :
    lookupDirty staleT.cacheDirty 0 = false ∧
    (staleT.getCache 0).2 = [1 / 2, 3 / 4, 1] ∧
    ((staleT.markCacheDirty).getCache 0).2 = [1 / 2, 1 / 2, 1 / 2] ∧
    ¬ ([1 / 2, 3 / 4, 1] : List ℚ) = [1 / 2, 1 / 2, 1 / 2] := by
  refine ⟨?_, ?_, ?_, by norm_num⟩
  · norm_num [staleT, cacheT, LCTemplate.setCache, LCTemplate.swapPrimitive,
      lookupDirty, alSet, List.find?]
  · norm_num [staleT, cacheT, LCTemplate.setCache, LCTemplate.swapPrimitive,
      LCTemplate.getCache, lookupDirty, alGet, alSet, List.find?, linspace01,
      List.range_succ, LCTemplate.evalPt, LCTemplate.getScales, mixtureFold,
      NormMap.weights, normAngles, LCPrimitive.eval, primId]
  · norm_num [staleT, cacheT, LCTemplate.setCache, LCTemplate.swapPrimitive,
      LCTemplate.getCache, LCTemplate.markCacheDirty, lookupDirty, alGet, alSet,
      List.find?, linspace01, List.range_succ, LCTemplate.evalPt,
      LCTemplate.getScales, mixtureFold, NormMap.weights, normAngles,
      LCPrimitive.eval, primId, primZero]

/-- C6 (code bug): the bridge constructor with `norms` omitted raises (its
default-norms line adds a list and an int), while the standard constructor
installs the uniform default; the standard variant fails with a validation
error exactly on a count-invariant violation, and the bridge variant
constructs successfully exactly when the count invariant holds *and* at
least two primitives are present — a one-primitive bridge passes
validation and then raises an IndexError at `primitives[-2]`. -/
theorem claim6_construction :
    lcbridgeNew [defaultPrimitive] none = .error .typeError ∧
    lctemplateNew [defaultPrimitive] none =
      .ok { primitives := [defaultPrimitive], norms := normAngles [1],
            ncache := 1000, interpMode := 1, cache := [], cacheDirty := [] } ∧
    (∀ (prims : List LCPrimitive) (v : List ℚ),
      (lctemplateNew prims (some (.tuple v))).isOk = true ↔
        prims.length = v.length) ∧
    (∀ (prims : List LCPrimitive) (v : List ℚ),
      (lcbridgeNew prims (some (.tuple v))).isOk = true ↔
        ((prims.length : Int) = (v.length : Int) - 1 ∧ 2 ≤ prims.length)) ∧
    lcbridgeNew [defaultPrimitive] (some (.tuple [1 / 2, 1 / 2])) =
      .error .indexError := by
  refine ⟨rfl, ?_, ?_, ?_, rfl⟩
  · have h : List.replicate 1 ((1 : ℚ) / ((1 : Nat) : ℚ)) = [1] := by norm_num
    simp only [lctemplateNew, List.length_cons, List.length_nil, h, normAngles,
      List.length_singleton, if_pos]
  · intro prims v
    simp only [lctemplateNew, normAngles]
    by_cases h : prims.length = v.length
    · simp [h, Except.isOk, Except.toBool]
    · simp [h, Except.isOk, Except.toBool]
  · intro prims v
    simp only [lcbridgeNew, normAngles]
    by_cases h : (prims.length : Int) = (v.length : Int) - 1
    · by_cases h2 : 2 ≤ prims.length
      · simp [h, h2, Except.isOk, Except.toBool]
      · simp [h, h2, Except.isOk, Except.toBool]
    · simp [h, Except.isOk, Except.toBool]

end Pint
